import Mathlib

/-!
Verification of the Cryptonita exit-management system (dynamic TP/SL) and of the
dashboard client code. The risk-manager implementation
(`src/trading/dynamic_risk_manager.py`) is not part of the provided sources, so its
behaviour is modelled from the specification; the dashboard WebSocket hook and the
axios API client are embedded from the JavaScript sources under `frontend/`.
Prices and quantities are modelled as exact rationals.
-/

namespace Cryptonita

/-- Modelled from the spec: one configured take-profit level, a pair of base
percentage and size fraction (missing `dynamic_risk_manager.py`). -/
structure TPLevelCfg where
  base_pct : ℚ
  size_fraction : ℚ
deriving DecidableEq, Repr

/-- Modelled from the spec: the recognised configuration options of §6
(missing `dynamic_risk_manager.py`). -/
structure Config where
  tp_levels : List TPLevelCfg
  sl_base_pct : ℚ
  trailing_activation_pct : ℚ
  trailing_atr_mult : ℚ
  trailing_min_lock_pct : ℚ
  momentum_reversal_min_profit : ℚ
  weakening_ratio : ℚ
  volume_collapse_threshold : ℚ
  bearish_red_fraction_threshold : ℚ
  min_mult : ℚ
  max_mult : ℚ
  neg_floor : ℚ
  max_retries : Nat
  backoff_base_ms : ℚ
  backoff_cap_ms : ℚ
deriving DecidableEq, Repr

/-- Modelled from the spec: the default configuration values listed in §6. -/
def defaultConfig : Config where
  tp_levels := [⟨1/10, 3/10⟩, ⟨2/10, 4/10⟩, ⟨4/10, 3/10⟩]
  sl_base_pct := 5/100
  trailing_activation_pct := 5/100
  trailing_atr_mult := 3/2
  trailing_min_lock_pct := 1/100
  momentum_reversal_min_profit := 3/100
  weakening_ratio := 3/10
  volume_collapse_threshold := 7/10
  bearish_red_fraction_threshold := 8/10
  min_mult := 1/2
  max_mult := 3
  neg_floor := 2/100
  max_retries := 5
  backoff_base_ms := 1000
  backoff_cap_ms := 60000

/-- Modelled from the spec: volatility buckets on `atr_pct`, half-open and
lower-inclusive (§4.1). -/
def volMult (atr : ℚ) : ℚ :=
  if atr < 2/100 then 8/10
  else if atr < 3/100 then 9/10
  else if atr < 5/100 then 1
  else if atr < 8/100 then 12/10
  else 15/10

/-- Modelled from the spec: momentum buckets on `momentum_3d` (§4.1); a negative
momentum below the configured negative floor maps to 0.8, other negatives to 0.9. -/
def momMult (negFloor m : ℚ) : ℚ :=
  if 5/100 ≤ m then 13/10
  else if 2/100 ≤ m then 115/100
  else if 0 ≤ m then 1
  else if -negFloor ≤ m then 9/10
  else 8/10

/-- Modelled from the spec: sentiment buckets on the fear-and-greed index (§4.1). -/
def sentMult (fg : ℚ) : ℚ :=
  if fg < 25 then 115/100
  else if fg < 40 then 105/100
  else if fg < 60 then 1
  else if fg < 75 then 95/100
  else 85/100

/-- Maximum of two rationals, written with an `if` so that it computes by `decide`. -/
def rmax (a b : ℚ) : ℚ := if a ≤ b then b else a

/-- Minimum of two rationals, written with an `if` so that it computes by `decide`. -/
def rmin (a b : ℚ) : ℚ := if a ≤ b then a else b

theorem rmax_eq_max (a b : ℚ) : rmax a b = max a b := (max_def a b).symm

theorem rmin_eq_min (a b : ℚ) : rmin a b = min a b := (min_def a b).symm

/-- Clamp a value into the closed interval from `lo` to `hi`. -/
def clamp (lo hi x : ℚ) : ℚ := rmax lo (rmin hi x)

/-- Modelled from the spec: the result record of the Adjustment Calculator (§4.1). -/
structure Adjust where
  vol_mult : ℚ
  mom_mult : ℚ
  sent_mult : ℚ
  tp_mult : ℚ
  sl_mult : ℚ
deriving DecidableEq, Repr

/-- Modelled from the spec: the Adjustment Calculator (§4.1). A missing feature
(`none`, standing for absent or NaN input) defaults that multiplier to the
neutral 1.0. The composite take-profit multiplier is the clamped product of the
three multipliers; the stop-loss multiplier is the volatility multiplier alone. -/
def adjustmentCalculator (cfg : Config) (atr mom fg : Option ℚ) : Adjust :=
  let v := (atr.map volMult).getD 1
  let m := (mom.map (momMult cfg.neg_floor)).getD 1
  let s := (fg.map sentMult).getD 1
  { vol_mult := v
    mom_mult := m
    sent_mult := s
    tp_mult := clamp cfg.min_mult cfg.max_mult (v * m * s)
    sl_mult := v }

/-- Modelled from the spec: one level of a position's take-profit ladder (§3). -/
structure TPLevel where
  price : ℚ
  size_fraction : ℚ
  hit : Bool
deriving DecidableEq, Repr

/-- Sum of the configured size fractions of a ladder configuration. -/
def fractionsSum (ls : List TPLevelCfg) : ℚ := (ls.map (·.size_fraction)).sum

/-- Whether a list of rationals is strictly increasing. -/
def strictlyIncreasing : List ℚ → Bool
  | [] => true
  | [_] => true
  | a :: b :: rest => decide (a < b) && strictlyIncreasing (b :: rest)

/-- Modelled from the spec: the Entry Planner (§4.2). It calls the Adjustment
Calculator once, derives the stop-loss price and the take-profit ladder from the
entry price, and fails with a `ConfigurationError` when the configured size
fractions do not sum to 1 or the base percentages are not strictly increasing. -/
def entryPlanner (cfg : Config) (entry_price : ℚ) (atr mom fg : Option ℚ) :
    Except String (Adjust × ℚ × List TPLevel) :=
  if fractionsSum cfg.tp_levels ≠ 1 then
    .error "ConfigurationError: size fractions must sum to 1"
  else if ¬ strictlyIncreasing (cfg.tp_levels.map (·.base_pct)) then
    .error "ConfigurationError: base percentages must be strictly increasing"
  else
    let adj := adjustmentCalculator cfg atr mom fg
    .ok (adj,
         entry_price * (1 - cfg.sl_base_pct * adj.sl_mult),
         cfg.tp_levels.map (fun l =>
           { price := entry_price * (1 + l.base_pct * adj.tp_mult)
             size_fraction := l.size_fraction
             hit := false }))

/-- Modelled from the spec: position status (§3). -/
inductive Status
  | OPENING
  | OPEN
  | PARTIALLY_CLOSED
  | CLOSED
  | FROZEN
deriving DecidableEq, Repr

/-- Modelled from the spec: a confirmed liquidation recorded against a position,
with the reason and the executed quantity. -/
structure ExitRecord where
  reason : String
  quantity : ℚ
deriving DecidableEq, Repr

/-- Modelled from the spec: the mutable state of one position (§3), together with
the immutable entry-feature values the Exit Signal Evaluator compares against. -/
structure Position where
  entry_price : ℚ
  quantity_total : ℚ
  quantity_remaining : ℚ
  sl_price : ℚ
  tp_ladder : List TPLevel
  trailing_active : Bool
  stop_price : ℚ
  status : Status
  entry_momentum : ℚ
  entry_strength : ℚ
  entry_volume : ℚ
  executed : List ExitRecord
  closed_reason : Option String
  retries : Nat
deriving DecidableEq, Repr

/-- Modelled from the spec: a live market-data snapshot for one ticker (§6). -/
structure Market where
  current_price : ℚ
  current_atr_abs : ℚ
  momentum_3d : ℚ
  momentum_strength : ℚ
  volume_ratio : ℚ
  red_candle_fraction : ℚ
  lower_lows : Bool
deriving DecidableEq, Repr

/-- Unrealized profit-and-loss of a position as a fraction of the entry price. -/
def pnlPct (p : Position) (m : Market) : ℚ :=
  (m.current_price - p.entry_price) / p.entry_price

/-- Modelled from the spec: an exit decision produced during one monitoring tick. -/
inductive ExitDecision
  | fullExit (reason : String)
  | partOfRemaining (frac : ℚ) (reason : String)
  | tpHit (idx : Nat)
deriving DecidableEq, Repr

/-- Modelled from the spec: whether exit rule `i` (0 = momentum reversal,
1 = momentum weakening, 2 = volume collapse, 3 = bearish pattern) matches the
current snapshot (§4.4). -/
def ruleMatches (cfg : Config) (p : Position) (m : Market) : Nat → Bool
  | 0 => decide (0 < p.entry_momentum) && decide (m.momentum_3d < 0)
          && decide (cfg.momentum_reversal_min_profit < pnlPct p m)
  | 1 => decide (m.momentum_strength < cfg.weakening_ratio * p.entry_strength)
          && decide (5/100 < pnlPct p m)
  | 2 => decide (m.volume_ratio < (1 - cfg.volume_collapse_threshold) * p.entry_volume)
  | 3 => decide (cfg.bearish_red_fraction_threshold < m.red_candle_fraction) || m.lower_lows
  | _ => false

/-- Modelled from the spec: the exit action attached to rule `i` (§4.4). -/
def ruleDecision : Nat → ExitDecision
  | 0 => .fullExit "momentum_reversal"
  | 1 => .partOfRemaining (1/2) "momentum_weakening"
  | 2 => .partOfRemaining (1/2) "volume_collapse"
  | _ => .partOfRemaining (3/10) "bearish_pattern"

/-- Modelled from the spec: the first rule, in the fixed priority order, that
matches this tick, if any (§4.4). -/
def firstMatchingRule (cfg : Config) (p : Position) (m : Market) : Option Nat :=
  if ruleMatches cfg p m 0 then some 0
  else if ruleMatches cfg p m 1 then some 1
  else if ruleMatches cfg p m 2 then some 2
  else if ruleMatches cfg p m 3 then some 3
  else none

/-- Modelled from the spec: index of the first ladder level, in ladder order,
that is not yet hit and whose price has been reached (§4.4). -/
def findTP (price : ℚ) : List TPLevel → Option Nat
  | [] => none
  | l :: ls =>
      if !l.hit && decide (l.price ≤ price) then some 0
      else (findTP price ls).map (· + 1)

/-- Modelled from the spec: the Exit Signal Evaluator (§4.4): the first matching
rule wins; the TP ladder is consulted only when no rule fired. -/
def exitSignal (cfg : Config) (p : Position) (m : Market) : Option ExitDecision :=
  match firstMatchingRule cfg p m with
  | some i => some (ruleDecision i)
  | none => (findTP m.current_price p.tp_ladder).map .tpHit

/-- Modelled from the spec: the Trailing Stop Controller's per-tick state update
(§4.3): activation when the profit threshold is reached, then a monotone
max-update of the stop price. Returns the new `trailing_active` and `stop_price`. -/
def trailingUpdate (cfg : Config) (p : Position) (m : Market) : Bool × ℚ :=
  if p.trailing_active then
    (true, rmax p.stop_price (m.current_price - cfg.trailing_atr_mult * m.current_atr_abs))
  else if cfg.trailing_activation_pct ≤ pnlPct p m then
    (true, rmax (p.entry_price * (1 + cfg.trailing_min_lock_pct))
                (m.current_price - cfg.trailing_atr_mult * m.current_atr_abs))
  else
    (false, p.stop_price)

/-- Modelled from the spec: the exit decision of one tick (§4.5): the trailing
stop is checked first and a reached stop triggers a full liquidation; otherwise
the Exit Signal Evaluator decides. -/
def tickDecision (cfg : Config) (p : Position) (m : Market) : Option ExitDecision :=
  let ts := trailingUpdate cfg p m
  if ts.1 && decide (m.current_price ≤ ts.2) then some (.fullExit "trailing_stop_hit")
  else exitSignal cfg p m

/-- Size fraction of ladder level `i`, or 0 when out of range. -/
def ladderFraction (ladder : List TPLevel) (i : Nat) : ℚ :=
  ((ladder.get? i).map (·.size_fraction)).getD 0

/-- Modelled from the spec: the quantity a decision liquidates (§4.4): all of the
remaining quantity for a full exit, a fraction of the remaining quantity for a
rule-based partial exit, and the level's size fraction of the total quantity
capped at the remaining quantity for a ladder hit. -/
def decisionQty (p : Position) : ExitDecision → ℚ
  | .fullExit _ => p.quantity_remaining
  | .partOfRemaining f _ => f * p.quantity_remaining
  | .tpHit i => rmin (ladderFraction p.tp_ladder i * p.quantity_total) p.quantity_remaining

/-- Reason string attached to a decision. -/
def decisionReason : ExitDecision → String
  | .fullExit r => r
  | .partOfRemaining _ r => r
  | .tpHit _ => "tp_hit"

/-- Mark ladder level `i` as hit, leaving every other field unchanged. -/
def markHit : List TPLevel → Nat → List TPLevel
  | [], _ => []
  | l :: ls, 0 => { l with hit := true } :: ls
  | l :: ls, n + 1 => l :: markHit ls n

/-- Modelled from the spec: apply a confirmed exit to the position (§4.5):
deduct the executed quantity, record the exit, mark a hit ladder level, and move
the status to `CLOSED` when nothing remains, else to `PARTIALLY_CLOSED`. -/
def applyDecision (p : Position) (d : ExitDecision) : Position :=
  let q := decisionQty p d
  let qr := p.quantity_remaining - q
  { p with
    quantity_remaining := qr
    tp_ladder := match d with
      | .tpHit i => markHit p.tp_ladder i
      | _ => p.tp_ladder
    executed := p.executed ++ [⟨decisionReason d, q⟩]
    status := if qr = 0 then .CLOSED else .PARTIALLY_CLOSED
    closed_reason := if qr = 0 then some (decisionReason d) else p.closed_reason }

/-- Modelled from the spec: one monitoring tick of the Position Lifecycle State
Machine (§4.5, §5, §7). Positions in a terminal or not-yet-open status are left
untouched. Otherwise the trailing state is updated, a decision is computed, and
a decision is applied only when the Order Execution Service confirmed the sell
(`execOk = true`). An unconfirmed sell leaves the position in its prior state
except for the retry counter, and escalates to `FROZEN` once the bounded number
of retries is exhausted. -/
def tick (cfg : Config) (p : Position) (m : Market) (execOk : Bool) : Position :=
  if p.status = .OPEN ∨ p.status = .PARTIALLY_CLOSED then
    let ts := trailingUpdate cfg p m
    match tickDecision cfg p m with
    | none => { p with trailing_active := ts.1, stop_price := ts.2 }
    | some d =>
        if execOk then
          applyDecision { p with trailing_active := ts.1, stop_price := ts.2 } d
        else if cfg.max_retries ≤ p.retries + 1 then
          { p with status := .FROZEN, retries := p.retries + 1 }
        else
          { p with retries := p.retries + 1 }
  else p

/-- Modelled from the spec: the retry delay for the n-th execution retry, a
bounded exponential backoff. -/
def backoffDelay (cfg : Config) (n : Nat) : ℚ :=
  rmin (cfg.backoff_base_ms * 2 ^ n) cfg.backoff_cap_ms

/-- Run a sequence of monitoring ticks, each with its market snapshot and its
execution-confirmation outcome. -/
def runTicks (cfg : Config) (p : Position) : List (Market × Bool) → Position
  | [] => p
  | (m, e) :: rest => runTicks cfg (tick cfg p m e) rest

end Cryptonita

namespace WS

/-! Embedding of `frontend/src/hooks/useWebSocket.js`: the reconnection state of
the hook, driven by socket events and the scheduled reconnect timer. -/

/-- `MAX_RECONNECT_ATTEMPTS` from `useWebSocket.js`. -/
def maxReconnectAttempts : Nat := 5

/-- `RECONNECT_INTERVAL` (milliseconds) from `useWebSocket.js`. -/
def reconnectInterval : Nat := 3000

/-- The hook state: the `reconnectAttemptsRef` counter, the `isConnected` flag,
the `error` string, and the delay of a scheduled reconnect timer when one is
pending. -/
structure State where
  attempts : Nat
  connected : Bool
  error : Option String
  pending : Option Nat
deriving DecidableEq, Repr

/-- Events the hook reacts to: the socket's `onopen` and `onclose` callbacks,
the scheduled reconnect timer firing, and an incoming `onmessage`. -/
inductive Event
  | opened
  | closedEvt
  | timerFired
  | message
deriving DecidableEq, Repr

/-- One callback step of `useWebSocket.js`. `onopen` marks connected, clears the
error and resets the attempt counter to 0. `onclose` schedules a reconnect in
`RECONNECT_INTERVAL` ms while fewer than `MAX_RECONNECT_ATTEMPTS` attempts were
made, and otherwise records the max-attempts error without scheduling anything.
The timer callback increments the attempt counter and re-connects. `onmessage`
does not touch this state. -/
def step (s : State) : Event → State
  | .opened => { s with connected := true, error := none, attempts := 0 }
  | .closedEvt =>
      if s.attempts < maxReconnectAttempts then
        { s with connected := false, pending := some reconnectInterval }
      else
        { s with connected := false, error := some "Max reconnection attempts reached" }
  | .timerFired =>
      match s.pending with
      | some _ => { s with pending := none, attempts := s.attempts + 1 }
      | none => s
  | .message => s

/-- The hook's initial state on mount. -/
def init : State := ⟨0, false, none, none⟩

/-- Run the hook over a sequence of events. -/
def run (s : State) : List Event → State
  | [] => s
  | e :: es => run (step s e) es

end WS

namespace ApiClient

/-! Embedding of the axios interceptors in `frontend/src/api/client.js`
(`src/unnamed/part_003`). -/

/-- The part of an outgoing request configuration the request interceptor
touches: its `Authorization` header. -/
structure RequestConfig where
  authHeader : Option String
deriving DecidableEq, Repr

/-- The browser state the response interceptor touches: the token stored in
`localStorage` and `window.location.href`. -/
structure Browser where
  token : Option String
  location : String
deriving DecidableEq, Repr

/-- Whether the interceptor chain hands the response to the caller or rejects
the promise with the error. -/
inductive Outcome
  | resolvedOutcome
  | rejectedOutcome
deriving DecidableEq, Repr

/-- The request interceptor of `client.js`: read the token from `localStorage`;
when one is present set `config.headers.Authorization` to `Bearer <token>`,
otherwise leave the configuration unchanged. -/
def requestInterceptor (token : Option String) (c : RequestConfig) : RequestConfig :=
  match token with
  | some t => { c with authHeader := some ("Bearer " ++ t) }
  | none => c

/-- The response error interceptor of `client.js`: on a response with HTTP
status 401 it removes the stored token and sets `window.location.href` to
`/login`; in every case it returns `Promise.reject(error)`, propagating the
error to the caller. -/
def responseErrorInterceptor (b : Browser) (status : Nat) : Browser × Outcome :=
  if status = 401 then ({ token := none, location := "/login" }, .rejectedOutcome)
  else (b, .rejectedOutcome)

end ApiClient

namespace Cryptonita

theorem rmax_left (a b : ℚ) : a ≤ rmax a b := by
  rw [rmax_eq_max]; exact le_max_left a b

theorem rmin_le_right (a b : ℚ) : rmin a b ≤ b := by
  rw [rmin_eq_min]; exact min_le_right a b

theorem rmin_nonneg {a b : ℚ} (ha : 0 ≤ a) (hb : 0 ≤ b) : 0 ≤ rmin a b := by
  rw [rmin_eq_min]; exact le_min ha hb

/-- C6: for every input feature triple, the composite take-profit multiplier is
the product of the volatility, momentum and sentiment multipliers clamped to the
configured interval (default bounds 0.5 and 3.0), while the stop-loss multiplier
is the volatility multiplier alone and does not depend on the momentum or
sentiment inputs. -/
theorem C6_composite_multipliers (cfg : Config) (atr mom fg mom2 fg2 : Option ℚ) :
    (adjustmentCalculator cfg atr mom fg).tp_mult
      = clamp cfg.min_mult cfg.max_mult
          ((adjustmentCalculator cfg atr mom fg).vol_mult
            * (adjustmentCalculator cfg atr mom fg).mom_mult
            * (adjustmentCalculator cfg atr mom fg).sent_mult)
    ∧ (adjustmentCalculator cfg atr mom fg).sl_mult
        = (adjustmentCalculator cfg atr mom fg).vol_mult
    ∧ (adjustmentCalculator cfg atr mom fg).sl_mult
        = (adjustmentCalculator cfg atr mom2 fg2).sl_mult
    ∧ defaultConfig.min_mult = 1/2 ∧ defaultConfig.max_mult = 3 := by
  refine ⟨rfl, rfl, rfl, rfl, rfl⟩

/-- C8: a monitoring tick delivered to a position whose status is `CLOSED` or
`FROZEN` (including a re-delivered, already-processed tick) mutates nothing:
the tick is a no-op and no transition leaves a terminal status. -/
theorem C8_terminal_tick_noop (cfg : Config) (p : Position) (m : Market) (e : Bool)
    (h : p.status = .CLOSED ∨ p.status = .FROZEN) :
    tick cfg p m e = p ∧ (tick cfg p m e).status = p.status := by
  have hne : ¬ (p.status = .OPEN ∨ p.status = .PARTIALLY_CLOSED) := by
    rcases h with h | h <;> rw [h] <;> rintro (h2 | h2) <;> exact Status.noConfusion h2
  refine ⟨?_, ?_⟩ <;> simp only [tick, if_neg hne]

/-- A closed position used as a concrete test vehicle. -/
def closedPos : Position where
  entry_price := 100
  quantity_total := 10
  quantity_remaining := 0
  sl_price := 94
  tp_ladder := []
  trailing_active := true
  stop_price := 103
  status := .CLOSED
  entry_momentum := 4/100
  entry_strength := 7/10
  entry_volume := 2
  executed := [⟨"trailing_stop_hit", 10⟩]
  closed_reason := some "trailing_stop_hit"
  retries := 0

/-- A market snapshot in which every exit rule and ladder level would fire,
were the position not terminal. -/
def stressMkt : Market where
  current_price := 120
  current_atr_abs := 2
  momentum_3d := -(2/100)
  momentum_strength := 1/10
  volume_ratio := 1/2
  red_candle_fraction := 9/10
  lower_lows := true

theorem C8_witness :
    tick defaultConfig closedPos stressMkt true = closedPos
    ∧ (tick defaultConfig closedPos stressMkt true).status = closedPos.status :=
  C8_terminal_tick_noop defaultConfig closedPos stressMkt true (Or.inl rfl)

/-- C10: the request interceptor attaches an `Authorization: Bearer <token>`
header exactly when a token is present in `localStorage` at send time, and the
response interceptor reacts to every 401 response by removing the stored token
and redirecting the browser to `/login` before propagating the error; every
other error is propagated with the browser state untouched. -/
theorem C10_auth_interceptors (tok : Option String) (c : ApiClient.RequestConfig)
    (hc : c.authHeader = none) :
    ((ApiClient.requestInterceptor tok c).authHeader.isSome ↔ tok.isSome)
    ∧ (∀ t, tok = some t →
        (ApiClient.requestInterceptor tok c).authHeader = some ("Bearer " ++ t))
    ∧ (∀ b status, status = 401 →
        ApiClient.responseErrorInterceptor b status
          = (⟨none, "/login"⟩, .rejectedOutcome))
    ∧ (∀ b status, status ≠ 401 →
        ApiClient.responseErrorInterceptor b status = (b, .rejectedOutcome)) := by
  refine ⟨?_, ?_, ?_, ?_⟩
  · cases tok <;> simp [ApiClient.requestInterceptor, hc]
  · rintro t rfl; simp [ApiClient.requestInterceptor]
  · rintro b status rfl; simp [ApiClient.responseErrorInterceptor]
  · intro b status h; simp [ApiClient.responseErrorInterceptor, h]

theorem C10_witness :
    (ApiClient.requestInterceptor (some "tok") ⟨none⟩).authHeader
      = some ("Bearer " ++ "tok") :=
  (C10_auth_interceptors (some "tok") ⟨none⟩ rfl).2.1 "tok" rfl

/-- C1 counterexample: at the exact input of the claim (entry price 100,
atr_pct 6%, momentum_3d +4%, fear_greed 45) the momentum bucket is the
`≥ 2%` bucket 1.15, not 1.3 (which requires momentum ≥ 5%), so the composite
take-profit multiplier is 1.38 rather than the claimed 1.56, and the first
ladder price is 113.80 rather than the claimed 115.60. -/
theorem C1_counterexample :
    (adjustmentCalculator defaultConfig (some (6/100)) (some (4/100)) (some 45)).mom_mult
      = 115/100
    ∧ (adjustmentCalculator defaultConfig (some (6/100)) (some (4/100)) (some 45)).tp_mult
        = 138/100
    ∧ (adjustmentCalculator defaultConfig (some (6/100)) (some (4/100)) (some 45)).tp_mult
        ≠ 156/100
    ∧ ((entryPlanner defaultConfig 100 (some (6/100)) (some (4/100)) (some 45)).toOption.map
        (fun r => r.2.2.map (·.price))) = some [1138/10, 1276/10, 1552/10]
    ∧ ¬ ((entryPlanner defaultConfig 100 (some (6/100)) (some (4/100)) (some 45)).toOption.map
        (fun r => r.2.2.map (·.price))) = some [1156/10, 1312/10, 1624/10] := by
  refine ⟨?_, ?_, ?_, ?_, ?_⟩ <;>
    norm_num [entryPlanner, fractionsSum, strictlyIncreasing, adjustmentCalculator,
      volMult, momMult, sentMult, clamp, rmax, rmin, defaultConfig, Except.toOption]

/-- C1 (amended): for a position entered at price 100 with atr_pct 6%
(volatility bucket 1.2), momentum_3d +4% (momentum bucket 1.15, since the 1.3
bucket requires at least 5%) and fear_greed 45 (bucket 1.0), the Entry Planner
under the default configuration produces tp_mult 1.38 and sl_mult 1.2, and
yields sl_price 94.00 and the TP ladder [113.80 with size fraction 0.30, 127.60
with 0.40, 155.20 with 0.30], with each ladder price equal to
entry_price * (1 + tp_base_pct * tp_mult). -/
theorem C1_amended :
    entryPlanner defaultConfig 100 (some (6/100)) (some (4/100)) (some 45)
      = .ok ({ vol_mult := 12/10, mom_mult := 115/100, sent_mult := 1,
               tp_mult := 138/100, sl_mult := 12/10 },
             94,
             [{ price := 100 * (1 + (1/10) * (138/100)), size_fraction := 3/10, hit := false },
              { price := 100 * (1 + (2/10) * (138/100)), size_fraction := 4/10, hit := false },
              { price := 100 * (1 + (4/10) * (138/100)), size_fraction := 3/10, hit := false }])
    ∧ (100 : ℚ) * (1 + (1/10) * (138/100)) = 1138/10
    ∧ (100 : ℚ) * (1 + (2/10) * (138/100)) = 1276/10
    ∧ (100 : ℚ) * (1 + (4/10) * (138/100)) = 1552/10 := by
  refine ⟨?_, by norm_num, by norm_num, by norm_num⟩
  norm_num [entryPlanner, fractionsSum, strictlyIncreasing, adjustmentCalculator,
    volMult, momMult, sentMult, clamp, rmax, rmin, defaultConfig]

/-- C5: on a tick where an inactive position's unrealized pnl fraction reaches
the activation threshold (default 5%), the Trailing Stop Controller activates
and initializes the stop price to the maximum of the minimum profit lock and the
ATR-distance candidate; in particular, for entry 100 and current price 106 the
initial stop is max(101.00, 106 - 1.5 * ATR_abs). -/
theorem C5_trailing_activation (cfg : Config) (p : Position) (m : Market) (e : Bool)
    (hst : p.status = .OPEN)
    (hact : p.trailing_active = false)
    (hpnl : cfg.trailing_activation_pct ≤ pnlPct p m)
    (hex : e = true ∨ tickDecision cfg p m = none) :
    (tick cfg p m e).trailing_active = true
    ∧ (tick cfg p m e).stop_price
        = max (p.entry_price * (1 + cfg.trailing_min_lock_pct))
              (m.current_price - cfg.trailing_atr_mult * m.current_atr_abs) := by
  have hcond : p.status = .OPEN ∨ p.status = .PARTIALLY_CLOSED := Or.inl hst
  have hts : trailingUpdate cfg p m
      = (true, rmax (p.entry_price * (1 + cfg.trailing_min_lock_pct))
                    (m.current_price - cfg.trailing_atr_mult * m.current_atr_abs)) := by
    simp [trailingUpdate, hact, hpnl]
  rcases hde : tickDecision cfg p m with _ | d
  · constructor <;> simp [tick, hcond, hts, hde, rmax_eq_max]
  · rcases hex with rfl | hnone
    · constructor <;> simp [tick, hcond, hts, hde, applyDecision, rmax_eq_max]
    · rw [hnone] at hde; exact Option.noConfusion hde

/-- An open position entered at 100 with a full remaining quantity, the
default-configuration ladder of Scenario A's corrected prices. -/
def openPos : Position where
  entry_price := 100
  quantity_total := 10
  quantity_remaining := 10
  sl_price := 94
  tp_ladder := [{ price := 1138/10, size_fraction := 3/10, hit := false },
                { price := 1276/10, size_fraction := 4/10, hit := false },
                { price := 1552/10, size_fraction := 3/10, hit := false }]
  trailing_active := false
  stop_price := 94
  status := .OPEN
  entry_momentum := 4/100
  entry_strength := 7/10
  entry_volume := 2
  executed := []
  closed_reason := none
  retries := 0

/-- Scenario B's market snapshot: price 106, absolute ATR 2, conditions calm. -/
def mktB : Market where
  current_price := 106
  current_atr_abs := 2
  momentum_3d := 4/100
  momentum_strength := 7/10
  volume_ratio := 2
  red_candle_fraction := 0
  lower_lows := false

theorem C5_witness :
    (tick defaultConfig openPos mktB true).trailing_active = true
    ∧ (tick defaultConfig openPos mktB true).stop_price
        = max (openPos.entry_price * (1 + defaultConfig.trailing_min_lock_pct))
              (mktB.current_price - defaultConfig.trailing_atr_mult * mktB.current_atr_abs) :=
  C5_trailing_activation defaultConfig openPos mktB true rfl rfl
    (by norm_num [pnlPct, openPos, mktB, defaultConfig]) (Or.inl rfl)

theorem trailingUpdate_active (cfg : Config) (p : Position) (m : Market)
    (h : p.trailing_active = true) :
    (trailingUpdate cfg p m).1 = true
    ∧ p.stop_price ≤ (trailingUpdate cfg p m).2 := by
  rw [trailingUpdate, if_pos h]
  exact ⟨rfl, rmax_left _ _⟩

theorem tick_trailing_state (cfg : Config) (p : Position) (m : Market) (e : Bool)
    (h : p.trailing_active = true) :
    (tick cfg p m e).trailing_active = true
    ∧ p.stop_price ≤ (tick cfg p m e).stop_price := by
  obtain ⟨h1, h2⟩ := trailingUpdate_active cfg p m h
  by_cases hcond : p.status = .OPEN ∨ p.status = .PARTIALLY_CLOSED
  · rcases hde : tickDecision cfg p m with _ | d
    · constructor <;> simp [tick, hcond, hde, h1, h2]
    · cases e
      · by_cases hr : cfg.max_retries ≤ p.retries + 1 <;>
          constructor <;> simp [tick, hcond, hde, hr, h]
      · constructor <;> simp [tick, hcond, hde, applyDecision, h1, h2]
  · constructor <;> simp [tick, hcond, h]

/-- C2: once a position's trailing stop is active, the stop price is
non-decreasing: every single monitoring tick can only raise it (each tick takes
the maximum of the old stop and the new candidate), and hence over any sequence
of subsequent ticks the stop price never decreases. -/
theorem C2_stop_price_monotone (cfg : Config) (p : Position)
    (h : p.trailing_active = true) :
    (∀ m e, p.stop_price ≤ (tick cfg p m e).stop_price)
    ∧ (∀ trace, p.stop_price ≤ (runTicks cfg p trace).stop_price) := by
  refine ⟨fun m e => (tick_trailing_state cfg p m e h).2, fun trace => ?_⟩
  induction trace generalizing p with
  | nil => exact le_refl _
  | cons me rest ih =>
      obtain ⟨ha, hs⟩ := tick_trailing_state cfg p me.1 me.2 h
      exact le_trans hs (by simpa [runTicks] using ih (tick cfg p me.1 me.2) ha)

/-- An already-active trailing position at entry 100 with stop 101. -/
def activePos : Position :=
  { openPos with trailing_active := true, stop_price := 101 }

theorem C2_witness :
    activePos.stop_price ≤ (tick defaultConfig activePos mktB true).stop_price
    ∧ activePos.stop_price
        ≤ (runTicks defaultConfig activePos [(mktB, true), (stressMkt, true)]).stop_price :=
  ⟨(C2_stop_price_monotone defaultConfig activePos rfl).1 mktB true,
   (C2_stop_price_monotone defaultConfig activePos rfl).2 [(mktB, true), (stressMkt, true)]⟩

/-- C7: when a tick produced an exit decision but the submit_sell call failed or
timed out, the position keeps exactly its previous quantity_remaining, executed
exits and (while retries remain) status; only the retry counter advances, the
position becomes FROZEN exactly when the bounded retries are exhausted, and the
retry delay follows a bounded exponential backoff. -/
theorem C7_execution_failure (cfg : Config) (p : Position) (m : Market) (d : ExitDecision)
    (hst : p.status = .OPEN ∨ p.status = .PARTIALLY_CLOSED)
    (hd : tickDecision cfg p m = some d) :
    ((tick cfg p m false).quantity_remaining = p.quantity_remaining
     ∧ (tick cfg p m false).executed = p.executed
     ∧ (tick cfg p m false).retries = p.retries + 1
     ∧ (p.retries + 1 < cfg.max_retries → (tick cfg p m false).status = p.status)
     ∧ ((tick cfg p m false).status = .FROZEN ↔ cfg.max_retries ≤ p.retries + 1))
    ∧ (∀ n, backoffDelay cfg n ≤ cfg.backoff_cap_ms)
    ∧ (0 ≤ cfg.backoff_base_ms →
        ∀ n, backoffDelay cfg n ≤ backoffDelay cfg (n + 1)) := by
  have hfr : p.status ≠ .FROZEN := by
    rcases hst with h | h <;> rw [h] <;> exact fun h2 => Status.noConfusion h2
  refine ⟨?_, fun n => rmin_le_right _ _, fun hb n => ?_⟩
  · by_cases hr : cfg.max_retries ≤ p.retries + 1
    · refine ⟨?_, ?_, ?_, fun hlt => absurd hr (by omega), ?_⟩ <;>
        simp [tick, hst, hd, hr]
    · refine ⟨?_, ?_, ?_, fun _ => ?_, ?_⟩ <;>
        simp [tick, hst, hd, hr, hfr]
  · rw [backoffDelay, backoffDelay, rmin_eq_min, rmin_eq_min]
    refine min_le_min ?_ (le_refl _)
    exact mul_le_mul_of_nonneg_left
      (pow_le_pow_right₀ (by norm_num) (Nat.le_succ n)) hb

theorem firstMatchingRule_first (cfg : Config) (p : Position) (m : Market) (i : Nat)
    (h : firstMatchingRule cfg p m = some i) :
    ruleMatches cfg p m i = true ∧ ∀ j, j < i → ruleMatches cfg p m j = false := by
  unfold firstMatchingRule at h
  split_ifs at h with h0 h1 h2 h3 <;> injection h with h <;> subst h
  · exact ⟨h0, fun j hj => absurd hj (Nat.not_lt_zero j)⟩
  · refine ⟨h1, fun j hj => ?_⟩
    match j, hj with
    | 0, _ => exact Bool.eq_false_iff.mpr h0
  · refine ⟨h2, fun j hj => ?_⟩
    match j, hj with
    | 0, _ => exact Bool.eq_false_iff.mpr h0
    | 1, _ => exact Bool.eq_false_iff.mpr h1
  · refine ⟨h3, fun j hj => ?_⟩
    match j, hj with
    | 0, _ => exact Bool.eq_false_iff.mpr h0
    | 1, _ => exact Bool.eq_false_iff.mpr h1
    | 2, _ => exact Bool.eq_false_iff.mpr h2

theorem firstMatchingRule_none (cfg : Config) (p : Position) (m : Market)
    (h : firstMatchingRule cfg p m = none) :
    ∀ i, ruleMatches cfg p m i = false := by
  unfold firstMatchingRule at h
  split_ifs at h with h0 h1 h2 h3
  intro i
  match i with
  | 0 => exact Bool.eq_false_iff.mpr h0
  | 1 => exact Bool.eq_false_iff.mpr h1
  | 2 => exact Bool.eq_false_iff.mpr h2
  | 3 => exact Bool.eq_false_iff.mpr h3
  | n + 4 => rfl

theorem findTP_spec (price : ℚ) (ladder : List TPLevel)
    (hsort : List.Pairwise (fun a b => a.price < b.price) ladder) :
    ∀ j, findTP price ladder = some j →
    ∃ l, ladder.get? j = some l ∧ l.hit = false ∧ l.price ≤ price
      ∧ ∀ l2 ∈ ladder, l2.hit = false → l2.price ≤ price → l.price ≤ l2.price := by
  induction ladder with
  | nil => intro j h; simp [findTP] at h
  | cons a as ih =>
      intro j h
      rw [findTP] at h
      by_cases ha : (!a.hit && decide (a.price ≤ price)) = true
      · rw [if_pos ha] at h
        injection h with h; subst h
        simp only [Bool.and_eq_true, Bool.not_eq_true', decide_eq_true_eq] at ha
        refine ⟨a, rfl, ha.1, ha.2, ?_⟩
        intro l2 hl2 _ _
        rcases List.mem_cons.mp hl2 with rfl | hl2
        · exact le_refl _
        · exact le_of_lt ((List.pairwise_cons.mp hsort).1 l2 hl2)
      · rw [if_neg ha] at h
        obtain ⟨j0, hj0, rfl⟩ := Option.map_eq_some'.mp h
        obtain ⟨l, hget, hhit, hle, hmin⟩ := ih (List.pairwise_cons.mp hsort).2 j0 hj0
        refine ⟨l, by simpa using hget, hhit, hle, ?_⟩
        intro l2 hl2 h1 h2
        rcases List.mem_cons.mp hl2 with rfl | hl2
        · exfalso
          apply ha
          simp only [Bool.and_eq_true, Bool.not_eq_true', decide_eq_true_eq]
          exact ⟨h1, h2⟩
        · exact hmin l2 hl2 h1 h2

theorem tick_executed_shape (cfg : Config) (p : Position) (m : Market) (e : Bool) :
    (tick cfg p m e).executed = p.executed
    ∨ ∃ r, (tick cfg p m e).executed = p.executed ++ [r] := by
  by_cases hcond : p.status = .OPEN ∨ p.status = .PARTIALLY_CLOSED
  · rcases hd : tickDecision cfg p m with _ | d
    · left; simp [tick, hcond, hd]
    · cases e
      · by_cases hr : cfg.max_retries ≤ p.retries + 1 <;> left <;>
          simp [tick, hcond, hd, hr]
      · right
        refine ⟨⟨decisionReason d,
          decisionQty { p with trailing_active := (trailingUpdate cfg p m).1,
                               stop_price := (trailingUpdate cfg p m).2 } d⟩, ?_⟩
        simp [tick, hcond, hd, applyDecision]
  · left; simp [tick, hcond]

/-- C4: on every monitoring tick the trailing-stop trigger is checked first,
rules are evaluated in the fixed order reversal, weakening, volume collapse,
bearish pattern (the first match is the decision, all earlier rules having
failed), at most one exit record is produced per tick, the TP ladder is
consulted only when no rule fired, the found ladder level is the lowest-priced
unhit level whose price is reached (for a price-sorted ladder), and a ladder
liquidation is capped at the remaining quantity. -/
theorem C4_exit_priority (cfg : Config) (p : Position) (m : Market) :
    ((trailingUpdate cfg p m).1 = true → m.current_price ≤ (trailingUpdate cfg p m).2 →
        tickDecision cfg p m = some (.fullExit "trailing_stop_hit"))
    ∧ ((tick cfg p m true).executed = p.executed
        ∨ ∃ r, (tick cfg p m true).executed = p.executed ++ [r])
    ∧ (∀ i, firstMatchingRule cfg p m = some i →
        ruleMatches cfg p m i = true ∧ ∀ j, j < i → ruleMatches cfg p m j = false)
    ∧ (∀ j, exitSignal cfg p m = some (.tpHit j) →
        (∀ i, ruleMatches cfg p m i = false)
        ∧ findTP m.current_price p.tp_ladder = some j)
    ∧ (List.Pairwise (fun a b => a.price < b.price) p.tp_ladder →
        ∀ j, findTP m.current_price p.tp_ladder = some j →
        ∃ l, p.tp_ladder.get? j = some l ∧ l.hit = false ∧ l.price ≤ m.current_price
          ∧ ∀ l2 ∈ p.tp_ladder, l2.hit = false → l2.price ≤ m.current_price →
              l.price ≤ l2.price)
    ∧ (∀ j, decisionQty p (.tpHit j) ≤ p.quantity_remaining) := by
  refine ⟨?_, tick_executed_shape cfg p m true, firstMatchingRule_first cfg p m, ?_,
    findTP_spec m.current_price p.tp_ladder, fun j => rmin_le_right _ _⟩
  · intro h1 h2
    simp [tickDecision, h1, h2]
  · intro j hj
    unfold exitSignal at hj
    rcases hfm : firstMatchingRule cfg p m with _ | i
    · rw [hfm] at hj
      obtain ⟨j0, hj0, heq⟩ := Option.map_eq_some'.mp hj
      injection heq with hcast
      exact ⟨firstMatchingRule_none cfg p m hfm, hcast ▸ hj0⟩
    · rw [hfm] at hj
      injection hj with hj
      exfalso
      match i, hj with
      | 0, hj => exact ExitDecision.noConfusion hj
      | 1, hj => exact ExitDecision.noConfusion hj
      | 2, hj => exact ExitDecision.noConfusion hj
      | n + 3, hj => exact ExitDecision.noConfusion hj

/-- Modelled from the spec: the quantity accounting invariant of §3 and §8, in
exact rational arithmetic: the remaining quantity is between 0 and the total,
and the executed exit quantities and the remaining quantity sum to the total. -/
def QtyInv (p : Position) : Prop :=
  0 ≤ p.quantity_remaining ∧ p.quantity_remaining ≤ p.quantity_total
  ∧ (p.executed.map (·.quantity)).sum + p.quantity_remaining = p.quantity_total

/-- Every ladder level carries a non-negative size fraction. -/
def LadderNonneg (p : Position) : Prop := ∀ l ∈ p.tp_ladder, 0 ≤ l.size_fraction

theorem ladderFraction_nonneg (ladder : List TPLevel)
    (h : ∀ l ∈ ladder, 0 ≤ l.size_fraction) (i : Nat) :
    0 ≤ ladderFraction ladder i := by
  induction ladder generalizing i with
  | nil => simp [ladderFraction]
  | cons a as ih =>
      cases i with
      | zero => simpa [ladderFraction] using h a (List.mem_cons_self a as)
      | succ n =>
          simpa [ladderFraction] using
            ih (fun l hl => h l (List.mem_cons_of_mem a hl)) n

theorem markHit_nonneg (ladder : List TPLevel)
    (h : ∀ l ∈ ladder, 0 ≤ l.size_fraction) (i : Nat) :
    ∀ l ∈ markHit ladder i, 0 ≤ l.size_fraction := by
  induction ladder generalizing i with
  | nil => simp [markHit]
  | cons a as ih =>
      cases i with
      | zero =>
          intro l hl
          rw [markHit] at hl
          rcases List.mem_cons.mp hl with rfl | hl
          · exact h a (List.mem_cons_self a as)
          · exact h l (List.mem_cons_of_mem a hl)
      | succ n =>
          intro l hl
          rw [markHit] at hl
          rcases List.mem_cons.mp hl with rfl | hl
          · exact h l (List.mem_cons_self l as)
          · exact ih (fun l2 hl2 => h l2 (List.mem_cons_of_mem a hl2)) n l hl

theorem tickDecision_shape (cfg : Config) (p : Position) (m : Market) (d : ExitDecision)
    (hd : tickDecision cfg p m = some d) :
    (∃ r, d = .fullExit r) ∨ (∃ r, d = .partOfRemaining (1/2) r)
    ∨ (∃ r, d = .partOfRemaining (3/10) r) ∨ ∃ j, d = .tpHit j := by
  simp only [tickDecision] at hd
  split at hd
  · left; exact ⟨_, (Option.some.inj hd).symm⟩
  · unfold exitSignal at hd
    rcases hfm : firstMatchingRule cfg p m with _ | i
    · rw [hfm] at hd
      obtain ⟨j, _, rfl⟩ := Option.map_eq_some'.mp hd
      exact Or.inr (Or.inr (Or.inr ⟨j, rfl⟩))
    · rw [hfm] at hd
      injection hd with hd
      subst hd
      match i with
      | 0 => left; exact ⟨_, rfl⟩
      | 1 => right; left; exact ⟨_, rfl⟩
      | 2 => right; left; exact ⟨_, rfl⟩
      | n + 3 => right; right; left; exact ⟨_, rfl⟩

theorem decisionQty_bounds (q : Position) (d : ExitDecision)
    (hshape : (∃ r, d = .fullExit r) ∨ (∃ r, d = .partOfRemaining (1/2) r)
      ∨ (∃ r, d = .partOfRemaining (3/10) r) ∨ ∃ j, d = .tpHit j)
    (h0 : 0 ≤ q.quantity_remaining) (h1 : q.quantity_remaining ≤ q.quantity_total)
    (hl : ∀ l ∈ q.tp_ladder, 0 ≤ l.size_fraction) :
    0 ≤ decisionQty q d ∧ decisionQty q d ≤ q.quantity_remaining := by
  have hqt : 0 ≤ q.quantity_total := le_trans h0 h1
  rcases hshape with ⟨r, rfl⟩ | ⟨r, rfl⟩ | ⟨r, rfl⟩ | ⟨j, rfl⟩
  · exact ⟨h0, le_refl _⟩
  · refine ⟨?_, ?_⟩ <;> simp only [decisionQty] <;> linarith
  · refine ⟨?_, ?_⟩ <;> simp only [decisionQty] <;> linarith
  · exact ⟨rmin_nonneg (mul_nonneg (ladderFraction_nonneg q.tp_ladder hl j) hqt) h0,
      rmin_le_right _ _⟩

theorem applyDecision_inv (q : Position) (d : ExitDecision)
    (hq0 : 0 ≤ decisionQty q d) (hq1 : decisionQty q d ≤ q.quantity_remaining)
    (h1 : q.quantity_remaining ≤ q.quantity_total)
    (hsum : (q.executed.map (·.quantity)).sum + q.quantity_remaining = q.quantity_total)
    (hl : ∀ l ∈ q.tp_ladder, 0 ≤ l.size_fraction) :
    QtyInv (applyDecision q d)
    ∧ (∀ l ∈ (applyDecision q d).tp_ladder, 0 ≤ l.size_fraction)
    ∧ (applyDecision q d).quantity_remaining ≤ q.quantity_remaining
    ∧ (applyDecision q d).quantity_total = q.quantity_total := by
  refine ⟨⟨?_, ?_, ?_⟩, ?_, ?_, ?_⟩
  · simp only [applyDecision]; linarith
  · simp only [applyDecision]; linarith
  · simp only [applyDecision, List.map_append, List.sum_append, List.map_cons,
      List.map_nil, List.sum_cons, List.sum_nil]
    linarith
  · rcases d with r | ⟨f, r⟩ | i
    · simpa [applyDecision] using hl
    · simpa [applyDecision] using hl
    · simpa only [applyDecision] using markHit_nonneg q.tp_ladder hl i
  · simp only [applyDecision]; linarith
  · simp only [applyDecision]

theorem tick_inv (cfg : Config) (p : Position) (m : Market) (e : Bool)
    (h0 : 0 ≤ p.quantity_remaining) (h1 : p.quantity_remaining ≤ p.quantity_total)
    (hsum : (p.executed.map (·.quantity)).sum + p.quantity_remaining = p.quantity_total)
    (hl : ∀ l ∈ p.tp_ladder, 0 ≤ l.size_fraction) :
    QtyInv (tick cfg p m e)
    ∧ (∀ l ∈ (tick cfg p m e).tp_ladder, 0 ≤ l.size_fraction)
    ∧ (tick cfg p m e).quantity_remaining ≤ p.quantity_remaining
    ∧ (tick cfg p m e).quantity_total = p.quantity_total := by
  by_cases hcond : p.status = .OPEN ∨ p.status = .PARTIALLY_CLOSED
  · rcases hd : tickDecision cfg p m with _ | d
    · have ht : tick cfg p m e
          = { p with trailing_active := (trailingUpdate cfg p m).1,
                     stop_price := (trailingUpdate cfg p m).2 } := by
        simp [tick, hcond, hd]
      rw [ht]
      exact ⟨⟨h0, h1, hsum⟩, hl, le_refl _, rfl⟩
    · cases e
      · by_cases hr : cfg.max_retries ≤ p.retries + 1
        · have ht : tick cfg p m false
              = { p with status := .FROZEN, retries := p.retries + 1 } := by
            simp [tick, hcond, hd, hr]
          rw [ht]
          exact ⟨⟨h0, h1, hsum⟩, hl, le_refl _, rfl⟩
        · have ht : tick cfg p m false = { p with retries := p.retries + 1 } := by
            simp [tick, hcond, hd, hr]
          rw [ht]
          exact ⟨⟨h0, h1, hsum⟩, hl, le_refl _, rfl⟩
      · have ht : tick cfg p m true = applyDecision
            { p with trailing_active := (trailingUpdate cfg p m).1,
                     stop_price := (trailingUpdate cfg p m).2 } d := by
          simp [tick, hcond, hd]
        have hb := decisionQty_bounds
          { p with trailing_active := (trailingUpdate cfg p m).1,
                   stop_price := (trailingUpdate cfg p m).2 } d
          (tickDecision_shape cfg p m d hd) h0 h1 hl
        have happ := applyDecision_inv
          { p with trailing_active := (trailingUpdate cfg p m).1,
                   stop_price := (trailingUpdate cfg p m).2 } d
          hb.1 hb.2 h1 hsum hl
        rw [ht]
        exact ⟨happ.1, happ.2.1, happ.2.2.1, happ.2.2.2⟩
  · have ht : tick cfg p m e = p := by simp [tick, hcond]
    rw [ht]
    exact ⟨⟨h0, h1, hsum⟩, hl, le_refl _, rfl⟩

theorem runTicks_inv (cfg : Config) (trace : List (Market × Bool)) (p : Position)
    (hinv : QtyInv p) (hl : LadderNonneg p) :
    QtyInv (runTicks cfg p trace) ∧ LadderNonneg (runTicks cfg p trace)
    ∧ (runTicks cfg p trace).quantity_remaining ≤ p.quantity_remaining := by
  induction trace generalizing p with
  | nil => exact ⟨hinv, hl, le_refl _⟩
  | cons me rest ih =>
      obtain ⟨h0, h1, hsum⟩ := hinv
      obtain ⟨hq, hlad, hmono, _⟩ := tick_inv cfg p me.1 me.2 h0 h1 hsum hl
      obtain ⟨i1, i2, i3⟩ := ih (tick cfg p me.1 me.2) hq hlad
      refine ⟨?_, ?_, le_trans ?_ hmono⟩ <;> simpa [runTicks] using ‹_›

/-- C3: every operation of the lifecycle state machine preserves the quantity
invariants: starting from a position satisfying 0 ≤ quantity_remaining ≤
quantity_total and exact conservation (executed exit quantities plus remaining
equals total), any single monitoring tick and any sequence of ticks keeps these
invariants, never increases quantity_remaining, and never changes
quantity_total. In exact rational arithmetic the conservation holds with
equality (no floating tolerance is needed); a hit ladder level's executed
quantity is its size_fraction × quantity_total capped at quantity_remaining. -/
theorem C3_quantity_invariants (cfg : Config) (p : Position)
    (hinv : QtyInv p) (hl : LadderNonneg p) :
    (∀ m e, QtyInv (tick cfg p m e) ∧ LadderNonneg (tick cfg p m e)
        ∧ (tick cfg p m e).quantity_remaining ≤ p.quantity_remaining
        ∧ (tick cfg p m e).quantity_total = p.quantity_total)
    ∧ ∀ trace, QtyInv (runTicks cfg p trace)
        ∧ (runTicks cfg p trace).quantity_remaining ≤ p.quantity_remaining := by
  obtain ⟨h0, h1, hsum⟩ := hinv
  refine ⟨fun m e => ?_, fun trace => ?_⟩
  · obtain ⟨a, b, c, d⟩ := tick_inv cfg p m e h0 h1 hsum hl
    exact ⟨a, b, c, d⟩
  · obtain ⟨a, _, c⟩ := runTicks_inv cfg trace p ⟨h0, h1, hsum⟩ hl
    exact ⟨a, c⟩

/-- Scenario C's market snapshot: price 115, all exit-rule conditions calm, so
only the first ladder level is reached. -/
def mktC : Market where
  current_price := 115
  current_atr_abs := 2
  momentum_3d := 4/100
  momentum_strength := 7/10
  volume_ratio := 2
  red_candle_fraction := 0
  lower_lows := false

theorem C4_witness :
    ruleMatches defaultConfig openPos mktC 0 = false
    ∧ findTP mktC.current_price openPos.tp_ladder = some 0
    ∧ decisionQty openPos (.tpHit 0) ≤ openPos.quantity_remaining :=
  have hsig : exitSignal defaultConfig openPos mktC = some (.tpHit 0) := by
    norm_num [exitSignal, firstMatchingRule, ruleMatches, findTP, pnlPct,
      openPos, mktC, defaultConfig]
  have h := (C4_exit_priority defaultConfig openPos mktC).2.2.2.1 0 hsig
  ⟨h.1 0, h.2, (C4_exit_priority defaultConfig openPos mktC).2.2.2.2.2 0⟩

theorem C3_witness :
    QtyInv (tick defaultConfig openPos mktC true)
    ∧ (tick defaultConfig openPos mktC true).quantity_remaining
        ≤ openPos.quantity_remaining
    ∧ QtyInv (runTicks defaultConfig openPos [(mktC, true), (mktC, true)])
    ∧ (runTicks defaultConfig openPos [(mktC, true), (mktC, true)]).quantity_remaining
        ≤ openPos.quantity_remaining :=
  have hinv : QtyInv openPos := by
    refine ⟨by norm_num [openPos], by norm_num [openPos], by norm_num [openPos]⟩
  have hl : LadderNonneg openPos := by
    intro l hlm
    simp only [openPos, List.mem_cons, List.not_mem_nil, or_false] at hlm
    rcases hlm with rfl | rfl | rfl <;> norm_num
  have h := C3_quantity_invariants defaultConfig openPos hinv hl
  ⟨(h.1 mktC true).1, (h.1 mktC true).2.2.1,
   (h.2 [(mktC, true), (mktC, true)]).1, (h.2 [(mktC, true), (mktC, true)]).2⟩

/-- Scenario D's market snapshot: price 110 with momentum flipped negative, so
the momentum-reversal rule produces a full-exit decision. -/
def mktD : Market where
  current_price := 110
  current_atr_abs := 2
  momentum_3d := -(2/100)
  momentum_strength := 7/10
  volume_ratio := 2
  red_candle_fraction := 0
  lower_lows := false

theorem C7_witness :
    (tick defaultConfig openPos mktD false).quantity_remaining = openPos.quantity_remaining
    ∧ (tick defaultConfig openPos mktD false).executed = openPos.executed
    ∧ (tick defaultConfig openPos mktD false).status = openPos.status
    ∧ backoffDelay defaultConfig 3 ≤ defaultConfig.backoff_cap_ms :=
  have h := C7_execution_failure defaultConfig openPos mktD (.fullExit "momentum_reversal")
    (Or.inl rfl)
    (by norm_num [tickDecision, trailingUpdate, exitSignal, firstMatchingRule,
      ruleMatches, ruleDecision, pnlPct, rmax, openPos, mktD, defaultConfig])
  ⟨h.1.1, h.1.2.1, h.1.2.2.2.1 (by norm_num [openPos, defaultConfig]), h.2.1 3⟩

end Cryptonita

namespace WS

/-- The safety invariant of the reconnect logic: the attempt counter never
exceeds the maximum, a pending reconnect timer only exists while attempts
remain, and every scheduled timer uses the 3000 ms reconnect interval. -/
def Inv (s : State) : Prop :=
  s.attempts ≤ maxReconnectAttempts
  ∧ (s.pending.isSome → s.attempts < maxReconnectAttempts)
  ∧ ∀ d, s.pending = some d → d = reconnectInterval

theorem inv_init : Inv init := by
  refine ⟨by simp [init, maxReconnectAttempts], by simp [init], by simp [init]⟩

theorem inv_step (s : State) (e : Event) (h : Inv s) : Inv (step s e) := by
  obtain ⟨h1, h2, h3⟩ := h
  cases e with
  | opened => exact ⟨by simp [step], by simp [step, maxReconnectAttempts],
      by simpa [step] using h3⟩
  | closedEvt =>
      by_cases hlt : s.attempts < maxReconnectAttempts
      · exact ⟨by simpa [step, hlt] using h1, by simp [step, hlt],
          by simp [step, hlt, reconnectInterval]⟩
      · exact ⟨by simpa [step, hlt] using h1, by simpa [step, hlt] using h2,
          by simpa [step, hlt] using h3⟩
  | timerFired =>
      rcases hp : s.pending with _ | d
      · exact ⟨by simp [step, hp]; exact h1, by simp [step, hp], by simp [step, hp]⟩
      · have : s.attempts < maxReconnectAttempts := h2 (by simp [hp])
        exact ⟨by simp [step, hp]; omega, by simp [step, hp], by simp [step, hp]⟩
  | message => exact ⟨h1, h2, h3⟩

theorem inv_run (s : State) (evs : List Event) (h : Inv s) : Inv (run s evs) := by
  induction evs generalizing s with
  | nil => exact h
  | cons e es ih => exact ih (step s e) (inv_step s e h)

/-- C9: the dashboard WebSocket hook never makes more than 5 consecutive
reconnection attempts: from the initial state the attempt counter stays at most
MAX_RECONNECT_ATTEMPTS = 5, every scheduled reconnect uses the 3000 ms
RECONNECT_INTERVAL, the counter is reset only by a successful open (which resets
it to 0), and a disconnect arriving with the attempts exhausted sets the error
"Max reconnection attempts reached" and schedules no further attempt. -/
theorem C9_reconnect_bound (evs : List Event)
    (hmax : (run init evs).attempts = maxReconnectAttempts) :
    (run init evs).attempts ≤ maxReconnectAttempts
    ∧ (∀ evs2, (run init evs2).attempts ≤ maxReconnectAttempts)
    ∧ (∀ evs2 d, (run init evs2).pending = some d → d = reconnectInterval)
    ∧ (∀ s e, (step s e).attempts < s.attempts → e = .opened)
    ∧ (∀ s, (step s .opened).attempts = 0)
    ∧ (∀ s, s.attempts < maxReconnectAttempts →
        (step s .closedEvt).pending = some reconnectInterval)
    ∧ (step (run init evs) .closedEvt).error = some "Max reconnection attempts reached"
    ∧ (step (run init evs) .closedEvt).pending = none := by
  have hinv : ∀ evs2, Inv (run init evs2) := fun evs2 => inv_run init evs2 inv_init
  refine ⟨(hinv evs).1, fun evs2 => (hinv evs2).1,
    fun evs2 d hd => (hinv evs2).2.2 d hd, ?_, fun s => by simp [step], ?_, ?_, ?_⟩
  · intro s e h
    cases e with
    | opened => rfl
    | closedEvt =>
        exfalso
        by_cases hlt : s.attempts < maxReconnectAttempts <;> simp [step, hlt] at h
    | timerFired =>
        exfalso
        rcases hp : s.pending with _ | d <;> simp [step, hp] at h
    | message => exact absurd h (by simp [step])
  · intro s hs; simp [step, hs]
  · have : ¬ (run init evs).attempts < maxReconnectAttempts := by omega
    simp [step, this]
  · have hlt : ¬ (run init evs).attempts < maxReconnectAttempts := by omega
    have hpend : (run init evs).pending = none := by
      rcases hp : (run init evs).pending with _ | d
      · rfl
      · have := (hinv evs).2.1 (by simp [hp])
        omega
    simp [step, hlt, hpend]

/-- A trace of five disconnect/timer rounds, exhausting the reconnect budget. -/
def exhaustTrace : List Event :=
  [.closedEvt, .timerFired, .closedEvt, .timerFired, .closedEvt, .timerFired,
   .closedEvt, .timerFired, .closedEvt, .timerFired]

theorem C9_witness :
    (run init exhaustTrace).attempts ≤ maxReconnectAttempts
    ∧ (step (run init exhaustTrace) .closedEvt).error
        = some "Max reconnection attempts reached"
    ∧ (step (run init exhaustTrace) .closedEvt).pending = none :=
  have h := C9_reconnect_bound exhaustTrace (by decide)
  ⟨h.1, h.2.2.2.2.2.2.1, h.2.2.2.2.2.2.2⟩

end WS
